import Mathlib

/-!
Verification of the linkme cross-platform linker-section layout core.

The Section Naming Resolver lives in src/impl/src/linker.rs: five platform
modules (linux, freebsd, macos, windows, illumos), each with three pure
functions mapping a collection identifier to the data-section name, the
start-boundary name and the stop-boundary name.  Identifiers (Rust
`syn::Ident` values, rendered via `Display`) are modelled as `String`;
Rust `format!` interpolation is modelled as string concatenation.

The runtime-side Collection View Constructor (the crate's
`distributed_slice` module) is declared in src/src/lib.rs but its body is
not present under src/, so it is modelled from the spec where noted.
-/

namespace linkme

namespace linux

def «section» (ident : String) : String :=
  "linkme_" ++ ident

def section_start (ident : String) : String :=
  "__start_linkme_" ++ ident

def section_stop (ident : String) : String :=
  "__stop_linkme_" ++ ident

end linux

namespace freebsd

def «section» (ident : String) : String :=
  "linkme_" ++ ident

def section_start (ident : String) : String :=
  "__start_linkme_" ++ ident

def section_stop (ident : String) : String :=
  "__stop_linkme_" ++ ident

end freebsd

namespace macos

def «section» (ident : String) : String :=
  "__DATA,__" ++ ident

def section_start (ident : String) : String :=
  "\x01section$start$__DATA$__" ++ ident

def section_stop (ident : String) : String :=
  "\x01section$end$__DATA$__" ++ ident

end macos

namespace windows

def «section» (ident : String) : String :=
  ".linkme_" ++ ident ++ "$b"

def section_start (ident : String) : String :=
  ".linkme_" ++ ident ++ "$a"

def section_stop (ident : String) : String :=
  ".linkme_" ++ ident ++ "$c"

end windows

namespace illumos

def «section» (ident : String) : String :=
  "set_linkme_" ++ ident

def section_start (ident : String) : String :=
  "__start_set_linkme_" ++ ident

def section_stop (ident : String) : String :=
  "__stop_set_linkme_" ++ ident

end illumos

/-- The Mach-O raw-symbol escape convention: a leading 0x01 byte tells the
assembler to emit the remainder of the name into the object file verbatim,
bypassing ordinary symbol-name decoration. -/
def rawSymbol (s : String) : String :=
  "\x01" ++ s

/-- The closed set of platform families supported by the naming resolver. -/
inductive Platform where
  | linux
  | freebsd
  | macos
  | windows
  | illumos
deriving DecidableEq, Repr

/-- Dispatcher over the per-platform modules: maps a platform and an
identifier to the triple (section, start symbol, stop symbol). -/
def name (p : Platform) (ident : String) : String × String × String :=
  match p with
  | Platform.linux => (linux.«section» ident, linux.section_start ident, linux.section_stop ident)
  | Platform.freebsd =>
      (freebsd.«section» ident, freebsd.section_start ident, freebsd.section_stop ident)
  | Platform.macos => (macos.«section» ident, macos.section_start ident, macos.section_stop ident)
  | Platform.windows =>
      (windows.«section» ident, windows.section_start ident, windows.section_stop ident)
  | Platform.illumos =>
      (illumos.«section» ident, illumos.section_start ident, illumos.section_stop ident)

/-- A materialized collection view: a pointer (address) and an element count.
Addresses are modelled as natural numbers. -/
structure CollectionView where
  ptr : Nat
  len : Nat
deriving DecidableEq, Repr

/-- Modelled from the spec: the Collection View Constructor of §4.3 (the
crate's `distributed_slice` module, declared in src/src/lib.rs but whose body
is not under src/).  It computes
`length = (stop_addr - start_addr) / size_of(element_type)` and fails fast
(process-fatal) when the division is not exact; the process abort is modelled
as `none`, a returned view as `some`. -/
def view (start_addr stop_addr elemSize : Nat) : Option CollectionView :=
  if (stop_addr - start_addr) % elemSize = 0 then
    some ⟨start_addr, (stop_addr - start_addr) / elemSize⟩
  else
    none

/-- Modelled from the spec: one atomic step of the compute-once lazy
initialization guard of §4.3/§5.  A call finding an empty cache computes the
view and stores it; a call finding a populated cache returns the cached value
unchanged.  Returns the value observed by this call and the cache afterwards. -/
def callView (compute : CollectionView) :
    Option CollectionView → CollectionView × Option CollectionView
  | some v => (v, some v)
  | none => (compute, some compute)

/-- Modelled from the spec: a sequence of `n` calls to `view()` on one shared
cache (any interleaving of concurrent callers is some such sequence, since each
guard step is atomic).  Returns the list of values the callers observe. -/
def runCalls (compute : CollectionView) : Nat → Option CollectionView → List CollectionView
  | 0, _ => []
  | n + 1, c =>
      let r := callView compute c
      r.1 :: runCalls compute n r.2

theorem string_append_left_inj (p a b : String) (h : p ++ a = p ++ b) : a = b := by
  have hd := congrArg String.data h
  simp only [String.congr_append] at hd
  exact String.ext (List.append_cancel_left hd)

theorem string_append_right_inj (s a b : String) (h : a ++ s = b ++ s) : a = b := by
  have hd := congrArg String.data h
  simp only [String.congr_append] at hd
  exact String.ext (List.append_cancel_right hd)

theorem left_inj_ne (p a b : String) (h : a ≠ b) : p ++ a ≠ p ++ b :=
  fun hh => h (string_append_left_inj p a b hh)

theorem affix_inj_ne (p s a b : String) (h : a ≠ b) : p ++ a ++ s ≠ p ++ b ++ s :=
  fun hh => h (string_append_left_inj p a b (string_append_right_inj s (p ++ a) (p ++ b) hh))

theorem runCalls_cached (v : CollectionView) :
    ∀ n, runCalls v n (some v) = List.replicate n v := by
  intro n
  induction n with
  | zero => rfl
  | succ m ih => simp [runCalls, callView, ih, List.replicate]

/-- C1: on the Linux-family platforms (Linux and FreeBSD), the Section Naming
Resolver returns section `linkme_<id>`, start symbol `__start_linkme_<id>` and
stop symbol `__stop_linkme_<id>` for every identifier. -/
theorem C1_linux_family_names (ident : String) :
    linux.«section» ident = "linkme_" ++ ident ∧
    linux.section_start ident = "__start_linkme_" ++ ident ∧
    linux.section_stop ident = "__stop_linkme_" ++ ident ∧
    freebsd.«section» ident = "linkme_" ++ ident ∧
    freebsd.section_start ident = "__start_linkme_" ++ ident ∧
    freebsd.section_stop ident = "__stop_linkme_" ++ ident :=
  ⟨rfl, rfl, rfl, rfl, rfl, rfl⟩

/-- C2: on the COFF/Windows-style family, the Naming Resolver returns three
sub-sections of one named group `.linkme_<id>` with ascending suffixes: the
data section for real elements is the `$b` sub-section, the start boundary the
`$a` sub-section, and the stop boundary the `$c` sub-section. -/
theorem C2_windows_names (ident : String) :
    windows.«section» ident = ".linkme_" ++ ident ++ "$b" ∧
    windows.section_start ident = ".linkme_" ++ ident ++ "$a" ∧
    windows.section_stop ident = ".linkme_" ++ ident ++ "$c" :=
  ⟨rfl, rfl, rfl⟩

/-- C3: on the Mach-O family, the Naming Resolver returns the data section as
segment `__DATA`, section `__<id>` (joined by a comma), and the start and stop
boundaries as the raw, non-mangled symbols `section$start$__DATA$__<id>` and
`section$end$__DATA$__<id>`, each carried through the raw-symbol escape
convention (a leading 0x01 byte) so the name reaches the object file
undecorated. -/
theorem C3_macos_names (ident : String) :
    macos.«section» ident = "__DATA" ++ "," ++ ("__" ++ ident) ∧
    macos.section_start ident = rawSymbol ("section$start$__DATA$__" ++ ident) ∧
    macos.section_stop ident = rawSymbol ("section$end$__DATA$__" ++ ident) := by
  refine ⟨?_, ?_, ?_⟩ <;>
    simp [macos.«section», macos.section_start, macos.section_stop, rawSymbol,
      String.congr_append]

/-- C4: on the ELF-with-link-editor-sets family (illumos), the Naming Resolver
returns section `set_linkme_<id>`, start symbol `__start_set_linkme_<id>` and
stop symbol `__stop_set_linkme_<id>` for every identifier. -/
theorem C4_illumos_names (ident : String) :
    illumos.«section» ident = "set_linkme_" ++ ident ∧
    illumos.section_start ident = "__start_set_linkme_" ++ ident ∧
    illumos.section_stop ident = "__stop_set_linkme_" ++ ident :=
  ⟨rfl, rfl, rfl⟩

/-- C5: the Section Naming Resolver is deterministic and side-effect-free: for
every supported platform and identifier, two calls with the same arguments
return identical (section, start symbol, stop symbol) triples. -/
theorem C5_name_deterministic (p q : Platform) (i j : String) (hp : p = q) (hi : i = j) :
    name p i = name q j := by
  rw [hp, hi]

/-- Witness for C5 at a concrete platform and identifier. -/
theorem C5_name_deterministic_witness :
    name Platform.linux "FOO" = name Platform.linux "FOO" :=
  C5_name_deterministic Platform.linux Platform.linux "FOO" "FOO" rfl rfl

/-- C9: the Linux and FreeBSD naming variants are extensionally equal: all
three naming functions agree on every identifier. -/
theorem C9_linux_freebsd_equal (ident : String) :
    linux.«section» ident = freebsd.«section» ident ∧
    linux.section_start ident = freebsd.section_start ident ∧
    linux.section_stop ident = freebsd.section_stop ident :=
  ⟨rfl, rfl, rfl⟩

/-- C10: on every platform module, each of the three naming functions is
injective in the identifier: distinct identifiers yield distinct section
names, distinct start symbols and distinct stop symbols. -/
theorem C10_naming_injective (id1 id2 : String) (h : id1 ≠ id2) :
    linux.«section» id1 ≠ linux.«section» id2 ∧
    linux.section_start id1 ≠ linux.section_start id2 ∧
    linux.section_stop id1 ≠ linux.section_stop id2 ∧
    freebsd.«section» id1 ≠ freebsd.«section» id2 ∧
    freebsd.section_start id1 ≠ freebsd.section_start id2 ∧
    freebsd.section_stop id1 ≠ freebsd.section_stop id2 ∧
    macos.«section» id1 ≠ macos.«section» id2 ∧
    macos.section_start id1 ≠ macos.section_start id2 ∧
    macos.section_stop id1 ≠ macos.section_stop id2 ∧
    windows.«section» id1 ≠ windows.«section» id2 ∧
    windows.section_start id1 ≠ windows.section_start id2 ∧
    windows.section_stop id1 ≠ windows.section_stop id2 ∧
    illumos.«section» id1 ≠ illumos.«section» id2 ∧
    illumos.section_start id1 ≠ illumos.section_start id2 ∧
    illumos.section_stop id1 ≠ illumos.section_stop id2 := by
  refine ⟨?_, ?_, ?_, ?_, ?_, ?_, ?_, ?_, ?_, ?_, ?_, ?_, ?_, ?_, ?_⟩ <;>
    first
      | exact left_inj_ne _ id1 id2 h
      | exact affix_inj_ne _ _ id1 id2 h

/-- Witness for C10 at the concrete identifiers A and B. -/
theorem C10_naming_injective_witness :
    linux.«section» "A" ≠ linux.«section» "B" ∧
    linux.section_start "A" ≠ linux.section_start "B" ∧
    linux.section_stop "A" ≠ linux.section_stop "B" ∧
    freebsd.«section» "A" ≠ freebsd.«section» "B" ∧
    freebsd.section_start "A" ≠ freebsd.section_start "B" ∧
    freebsd.section_stop "A" ≠ freebsd.section_stop "B" ∧
    macos.«section» "A" ≠ macos.«section» "B" ∧
    macos.section_start "A" ≠ macos.section_start "B" ∧
    macos.section_stop "A" ≠ macos.section_stop "B" ∧
    windows.«section» "A" ≠ windows.«section» "B" ∧
    windows.section_start "A" ≠ windows.section_start "B" ∧
    windows.section_stop "A" ≠ windows.section_stop "B" ∧
    illumos.«section» "A" ≠ illumos.«section» "B" ∧
    illumos.section_start "A" ≠ illumos.section_start "B" ∧
    illumos.section_stop "A" ≠ illumos.section_stop "B" :=
  C10_naming_injective "A" "B" (by decide)

/-- C6: the Collection View Constructor computes
length = (stop - start) / size_of(element_type); it returns a view exactly
when the byte distance divides evenly by the element size, and aborts
(returns no view) otherwise. -/
theorem C6_view_exact_division (start_addr stop_addr elemSize : Nat)
    (hsz : 0 < elemSize) :
    (elemSize ∣ (stop_addr - start_addr) →
      view start_addr stop_addr elemSize =
        some ⟨start_addr, (stop_addr - start_addr) / elemSize⟩) ∧
    (¬ elemSize ∣ (stop_addr - start_addr) →
      view start_addr stop_addr elemSize = none) := by
  have _hpos : 0 < elemSize := hsz
  constructor
  · intro hdvd
    have hm : (stop_addr - start_addr) % elemSize = 0 := Nat.mod_eq_zero_of_dvd hdvd
    simp [view, hm]
  · intro hdvd
    have hm : (stop_addr - start_addr) % elemSize ≠ 0 := fun hh =>
      hdvd (Nat.dvd_of_mod_eq_zero hh)
    simp [view, hm]

/-- Witness for C6: element size 4 on a span of 8 bytes yields a view of
length 2; on a span of 6 bytes it aborts. -/
theorem C6_view_exact_division_witness :
    view 100 108 4 = some ⟨100, 2⟩ ∧ view 100 106 4 = none :=
  ⟨(C6_view_exact_division 100 108 4 (by decide)).1 (by decide),
   (C6_view_exact_division 100 106 4 (by decide)).2 (by decide)⟩

/-- C7: a collection with zero contributed elements, whose start address
equals its stop address, still yields a valid view of length 0 whose pointer
is that (never dereferenced) shared address. -/
theorem C7_empty_collection (addr elemSize : Nat) :
    view addr addr elemSize = some ⟨addr, 0⟩ := by
  simp [view]

/-- C8: view construction is idempotent: in any sequence of n calls on one
shared compute-once cache (covering any interleaving of racing first calls,
each guard step being atomic), every call's observed (pointer, length) equals
the computed view, i.e. all calls return the identical result as the first. -/
theorem C8_view_idempotent (compute : CollectionView) (n : Nat) :
    runCalls compute n none = List.replicate n compute := by
  cases n with
  | zero => rfl
  | succ m => simp [runCalls, callView, runCalls_cached, List.replicate]

end linkme
